import Mathlib

/-!
Verification development for the interactive TTS sentence processor
(`tts.py`).  The definitions below are a shallow embedding of the parts of
the program that carry the session state machine: sentence segmentation
(`read_sentences`), the reload reconciliation of the cursor, the
navigation keys, the persistence of the cursor position in the settings
document (`load_settings`, `save_settings`, `exit_script`), and the main
interactive loop (`main`).  Texts are modelled as `List Char`, machine
integers as `Int` (Python integers are unbounded), the settings document
as a record of its two position fields, and the filesystem effects of the
loop as explicit state passing.
-/

namespace TTS

/-- Python's `\s` character class restricted to the ASCII whitespace
characters (space, tab, newline, carriage return, vertical tab, form
feed); this is also the set stripped by `str.strip()` on the texts the
program handles. -/
def pySpace (c : Char) : Bool :=
  c == ' ' || c == '\t' || c == '\n' || c == '\r' || c == '\x0b' || c == '\x0c'

/-- The sentence-terminal marks of the splitting regex: `[.!?]`. -/
def isTermMark (c : Char) : Bool :=
  c == '.' || c == '!' || c == '?'

/-- The character class `[A-Z]` of the regex's lookbehind. -/
def isUpperAZ (c : Char) : Bool :=
  'A' ≤ c && c ≤ 'Z'

/-- The negative lookbehind `(?<![A-Z]\.)` evaluated at position `p` of
text `t`: the attempt is blocked when the two characters just before `p`
are an ASCII capital letter followed by a period. -/
def blockedAt (t : List Char) (p : Nat) : Bool :=
  if p < 2 then false
  else
    match t.get? (p - 2), t.get? (p - 1) with
    | some a, some b => isUpperAZ a && b == '.'
    | _, _ => false

/-- The lookahead `(?=\s|$)` evaluated at position `i`: position `i` is
past the end of the text, or holds a whitespace character. -/
def wsOrEnd (t : List Char) (i : Nat) : Bool :=
  match t.get? i with
  | none => true
  | some c => pySpace c

/-- One attempt of the pattern `(?<![A-Z]\.)[^.!?]+(?:[.!?](?=\s|$))?` at
position `p` of `t`: `none` when the pattern does not match there (the
lookbehind is blocked, or no non-terminal character starts at `p`);
otherwise the matched run of characters together with the position just
after the match.  The greedy `[^.!?]+` takes the maximal run of
non-terminal characters; the optional group then consumes one terminal
mark exactly when it is followed by whitespace or the end of the text. -/
def matchAt (t : List Char) (p : Nat) : Option (List Char × Nat) :=
  if blockedAt t p then none
  else
    let run := (t.drop p).takeWhile (fun c => !isTermMark c)
    if run.isEmpty then none
    else
      let q := p + run.length
      match t.get? q with
      | some c =>
        if isTermMark c && wsOrEnd t (q + 1) then some (run ++ [c], q + 1)
        else some (run, q)
      | none => some (run, q)

/-- The scan of `re.findall`: attempt a match at each position; on failure
advance one character, on success emit the match and resume right after
it.  A successful match always consumes at least one character, so the
scan advances at every step; the `fuel` argument makes the recursion
structural and `t.length + 1` units always suffice (see
`findallAux_fuel_irrelevant`). -/
def findallAux (t : List Char) : Nat → Nat → List (List Char)
  | 0, _ => []
  | fuel + 1, p =>
    if t.length ≤ p then []
    else
      match matchAt t p with
      | none => findallAux t fuel (p + 1)
      | some (m, e) => m :: findallAux t fuel e

/-- `re.findall(r'(?<![A-Z]\.)[^.!?]+(?:[.!?](?=\s|$))?', content)`. -/
def re_findall (t : List Char) : List (List Char) :=
  findallAux t (t.length + 1) 0

/-- Python `str.strip()`: drop whitespace from both ends. -/
def pyStrip (s : List Char) : List Char :=
  ((s.dropWhile pySpace).reverse.dropWhile pySpace).reverse

/-- The segmentation of `read_sentences` (lines 148–150 of `tts.py`):
run the splitting regex over the text, strip every match, and keep the
non-empty results. -/
def splitSentences (content : List Char) : List (List Char) :=
  ((re_findall content).map pyStrip).filter (fun s => !s.isEmpty)

/-- `read_sentences()`: the input file is `none` when `texts/data.txt` is
missing.  The function prints an error and terminates the process
(`exit_script()`, which never saves the position) when the file is
missing or the segmentation yields no sentences; this outcome is `none`.
Otherwise it returns the non-empty sentence list. -/
def read_sentences (file : Option (List Char)) : Option (List (List Char)) :=
  match file with
  | none => none
  | some content =>
    let sentences := splitSentences content
    if sentences.isEmpty then none else some sentences

/-! ## Settings document and `load_settings` / `save_settings` -/

/-- The settings document (`settings.json`), restricted to its two
position fields; a field that is absent from the JSON object is `none`. -/
structure SettingsDoc where
  last_processed_sentence : Option Int := none
  last_processed_paragraph : Option Int := none
deriving DecidableEq

/-- The durable settings file as the loader sees it: missing
(`FileNotFoundError`), present but not valid JSON — an empty file
included — (`json.JSONDecodeError`), unreadable (`IOError`), or a parsed
document. -/
inductive SettingsFile where
  | missing
  | unparsable
  | unreadable
  | valid (d : SettingsDoc)
deriving DecidableEq

/-- The document written by the default-initialisation branches of
`load_settings`: `{"last_processed_sentence": 0}`. -/
def defaultSettings : SettingsDoc :=
  { last_processed_sentence := some 0 }

/-- The outcome of `load_settings()`: the in-memory `settings`, the state
of the durable file after the call, and whether `save_settings()` was
invoked during the call. -/
structure LoadResult where
  settings : SettingsDoc
  disk : SettingsFile
  wrote : Bool
deriving DecidableEq

/-- `load_settings()` (lines 71–90 of `tts.py`): a missing, unparsable or
unreadable file is replaced by the default document, which is saved at
once; a parsed document holding the legacy field
`last_processed_paragraph` and not the canonical
`last_processed_sentence` has the value moved to the canonical field
(`pop` removes the legacy one) and is saved; any other parsed document is
adopted as-is with no write. -/
def load_settings : SettingsFile → LoadResult
  | .missing => ⟨defaultSettings, .valid defaultSettings, true⟩
  | .unparsable => ⟨defaultSettings, .valid defaultSettings, true⟩
  | .unreadable => ⟨defaultSettings, .valid defaultSettings, true⟩
  | .valid d =>
    if d.last_processed_paragraph.isSome && d.last_processed_sentence.isNone then
      let d' : SettingsDoc := { last_processed_sentence := d.last_processed_paragraph }
      ⟨d', .valid d', true⟩
    else ⟨d, .valid d, false⟩

/-- `settings.get("last_processed_sentence", 0)` (line 435): the starting
cursor of the session. -/
def settingsGetPosition (d : SettingsDoc) : Int :=
  d.last_processed_sentence.getD 0

/-! ## Cursor reconciliation -/

/-- The reload reconciliation of the cursor (lines 521–526): keep the old
index when it is still within the new count, otherwise clamp to the new
last index, and fall back to 0 when there are no sentences. -/
def reconcile (old_index : Int) (new_total : Nat) : Int :=
  if old_index < (new_total : Int) then old_index
  else if 0 < new_total then (new_total : Int) - 1
  else 0

/-- The very-first-load adjustment of the persisted index (lines 441–442,
repeated at lines 478–479): `if current >= len: current = len - 1 if
len > 0 else 0`. -/
def initialAdjust (c : Int) (n : Nat) : Int :=
  if (n : Int) ≤ c then (if 0 < n then (n : Int) - 1 else 0) else c

/-! ## Navigation keys -/

/-- The `'l'` (next) handler on the cursor (lines 496–498): increment
only strictly below the last index. -/
def nextCursor (c : Int) (n : Nat) : Int :=
  if c < (n : Int) - 1 then c + 1 else c

/-- The `'j'` (prev) handler on the cursor (lines 504–506): decrement
only strictly above 0. -/
def prevCursor (c : Int) : Int :=
  if 0 < c then c - 1 else c

/-- A navigation key event. -/
inductive NavKey where
  | next
  | prev
deriving DecidableEq

/-- One navigation step on the cursor, with `n` sentences on show. -/
def navStep (n : Nat) (c : Int) : NavKey → Int
  | .next => nextCursor c n
  | .prev => prevCursor c

/-- A whole sequence of navigation key events applied in order. -/
def navRun (n : Nat) (ks : List NavKey) (c : Int) : Int :=
  ks.foldl (navStep n) c

/-! ## The main interactive loop -/

/-- The in-memory state of one iteration of the main loop, together with
the persisted position on disk: `sentences` is the current sentence
list, `cursor` is `current_sentence_index`, `disk` is the
`last_processed_sentence` value in the durable settings document, and
`errFlag` is `_ffmpeg_error_printed`. -/
structure LoopState where
  sentences : List (List Char)
  cursor : Int
  disk : Int
  errFlag : Bool
deriving DecidableEq

/-- A key event of the loop (already lowercased by `.lower()`), or the
out-of-band `KeyboardInterrupt`. -/
inductive Event where
  | next
  | prev
  | record
  | reload
  | quit
  | other
  | interrupt
deriving DecidableEq

/-- `exit_script(save_position, current_index)` acting on the persisted
position: when `save_position` is set the cursor is written
(`settings["last_processed_sentence"] = current_index; save_settings()`),
otherwise the disk is untouched.  The result is the persisted position
after the process has exited. -/
def exit_script (save_position : Bool) (current_index : Int) (disk : Int) : Int :=
  if save_position then current_index else disk

/-- The outcome of one loop iteration: continue with a new state, or the
process has exited (`sys.exit(0)`) leaving the given persisted
position. -/
inductive StepResult where
  | cont (s : LoopState)
  | exited (disk : Int)
deriving DecidableEq

/-- The persisted position after a step, whether the loop continues or
the process exited. -/
def diskAfter : StepResult → Int
  | .cont s => s.disk
  | .exited d => d

/-- Whether the step ended the process. -/
def StepResult.isExit : StepResult → Bool
  | .cont _ => false
  | .exited _ => true

/-- One iteration of the main loop (lines 462–540 of `tts.py`), given the
current state, the event, the text file as `read_sentences` would see it
on a reload (`none` = `data.txt` missing), and the outcome of the
record pipeline (`synthOk`: `synthesize_text` returned audio;
`playerFail`: the `ffplay` invocation failed, which prints once and sets
`_ffmpeg_error_printed`).

With an empty sentence list (lines 468–488) only `q` and `r` act: `q`
saves and exits; `r` resets the error flag and re-runs `read_sentences`,
which either terminates the process without saving (missing file or no
sentences — the raised `SystemExit` is not an `Exception` and propagates
out of `main`) or installs the new list with the cursor adjustment of
lines 478–479.  Otherwise (lines 496–536): `l` increments the cursor
below the last index and persists it at once; `j` decrements above 0;
space runs the record pipeline, which touches no settings; `r` resets
the error flag and re-runs `read_sentences`, terminating the process
without saving on failure (`except SystemExit: sys.exit(0)`, lines
533–534) and reconciling the cursor on success; `q` saves and exits;
any other key is ignored.  `KeyboardInterrupt` at any point exits via
`exit_script(save_position=False)` (lines 538–540). -/
def loopStep (s : LoopState) (e : Event) (file : Option (List Char))
    (synthOk playerFail : Bool) : StepResult :=
  match e with
  | .interrupt => .exited (exit_script false 0 s.disk)
  | .quit => .exited (exit_script true s.cursor s.disk)
  | .reload =>
    match read_sentences file with
    | none => .exited (exit_script false 0 s.disk)
    | some new_sentences =>
      if s.sentences.isEmpty then
        .cont { s with
          sentences := new_sentences
          cursor := initialAdjust s.cursor new_sentences.length
          errFlag := false }
      else
        .cont { s with
          sentences := new_sentences
          cursor := reconcile s.cursor new_sentences.length
          errFlag := false }
  | .next =>
    if s.sentences.isEmpty then .cont s
    else if s.cursor < (s.sentences.length : Int) - 1 then
      .cont { s with cursor := s.cursor + 1, disk := s.cursor + 1 }
    else .cont s
  | .prev =>
    if s.sentences.isEmpty then .cont s
    else if 0 < s.cursor then .cont { s with cursor := s.cursor - 1 }
    else .cont s
  | .record =>
    if s.sentences.isEmpty then .cont s
    else .cont { s with errFlag := s.errFlag || (synthOk && playerFail) }
  | .other => .cont s

/-! ## Helper lemmas -/

/-- A successful match attempt ends strictly after the position it
started at: `[^.!?]+` consumes at least one character. -/
theorem matchAt_lt (t : List Char) (p : Nat) {m : List Char} {e : Nat}
    (h : matchAt t p = some (m, e)) : p < e := by
  unfold matchAt at h
  split at h
  · exact absurd h (by simp)
  · dsimp only at h
    split at h
    · exact absurd h (by simp)
    · rename_i hrun
      have hlen : 0 < ((t.drop p).takeWhile (fun c => !isTermMark c)).length := by
        rcases hr : (t.drop p).takeWhile (fun c => !isTermMark c) with _ | ⟨a, l⟩
        · rw [hr] at hrun; simp at hrun
        · simp
      split at h
      · split at h
        · rw [Option.some_inj, Prod.mk.injEq] at h
          omega
        · rw [Option.some_inj, Prod.mk.injEq] at h
          omega
      · rw [Option.some_inj, Prod.mk.injEq] at h
        omega

/-- Once the position is past the end of the text the scan yields
nothing, whatever the fuel. -/
theorem findallAux_past_end (t : List Char) (g p : Nat) (h : t.length ≤ p) :
    findallAux t g p = [] := by
  cases g with
  | zero => rfl
  | succ g => simp [findallAux, h]

/-- The fuel of `findallAux` is irrelevant as soon as it covers the
remaining positions: every step advances the position by at least one
character. -/
theorem findallAux_fuel_irrelevant (t : List Char) (f : Nat) :
    ∀ p g, t.length ≤ p + f → t.length ≤ p + g →
      findallAux t f p = findallAux t g p := by
  induction f with
  | zero =>
    intro p g hf hg
    rw [findallAux_past_end t 0 p (by omega), findallAux_past_end t g p (by omega)]
  | succ f ih =>
    intro p g hf hg
    by_cases hp : t.length ≤ p
    · rw [findallAux_past_end t _ p hp, findallAux_past_end t g p hp]
    · have hg1 : ∃ g0, g = g0 + 1 := by
        cases g
        · omega
        · exact ⟨_, rfl⟩
      obtain ⟨g0, rfl⟩ := hg1
      simp only [findallAux, if_neg hp]
      cases hm : matchAt t p with
      | none => exact ih (p + 1) g0 (by omega) (by omega)
      | some me =>
        obtain ⟨m, e⟩ := me
        have he := matchAt_lt t p hm
        dsimp only
        rw [ih e g0 (by omega) (by omega)]

/-- The head of a `dropWhile` result never satisfies the predicate. -/
theorem dropWhile_head_not {α : Type} (p : α → Bool) :
    ∀ (l : List α) (c : α) (r : List α), l.dropWhile p = c :: r → p c = false := by
  intro l
  induction l with
  | nil => intro c r h; simp at h
  | cons a l ih =>
    intro c r h
    by_cases hp : p a
    · rw [List.dropWhile_cons_of_pos hp] at h
      exact ih c r h
    · rw [List.dropWhile_cons_of_neg hp] at h
      cases h
      simpa using hp

/-- A non-empty stripped string contains a non-whitespace character (its
last character). -/
theorem pyStrip_has_ink (s : List Char) (h : pyStrip s ≠ []) :
    (pyStrip s).any (fun c => !pySpace c) = true := by
  rw [List.any_eq_true]
  rcases hd : ((s.dropWhile pySpace).reverse).dropWhile pySpace with _ | ⟨c, r⟩
  · exact absurd (by unfold pyStrip; rw [hd]; simp) h
  · have hc : pySpace c = false := dropWhile_head_not pySpace _ c r hd
    refine ⟨c, ?_, by simp [hc]⟩
    unfold pyStrip
    rw [hd]
    simp

/-- Single-step bound preservation for the navigation keys with a
non-empty sentence list. -/
theorem navStep_bounds (n : Nat) (c : Int) (k : NavKey)
    (hn : 0 < n) (h0 : 0 ≤ c) (hc : c < (n : Int)) :
    0 ≤ navStep n c k ∧ navStep n c k < (n : Int) := by
  cases k <;> simp only [navStep, nextCursor, prevCursor] <;> split <;> omega

/-- Bound preservation along any sequence of navigation keys. -/
theorem navRun_bounds (n : Nat) (ks : List NavKey) (hn : 0 < n) :
    ∀ c : Int, 0 ≤ c → c < (n : Int) →
      0 ≤ navRun n ks c ∧ navRun n ks c < (n : Int) := by
  induction ks with
  | nil => intro c h0 hc; exact ⟨h0, hc⟩
  | cons k ks ih =>
    intro c h0 hc
    have hstep := navStep_bounds n c k hn h0 hc
    have : navRun n (k :: ks) c = navRun n ks (navStep n c k) := rfl
    rw [this]
    exact ih _ hstep.1 hstep.2

/-! ## Claim theorems -/

/-- C1: the reload reconciliation satisfies, for every old cursor `c` and
counts `oldN`, `newN` (the old count is not consulted): when `newN = 0`
the new cursor is 0; when `c < newN` the cursor is kept; when
`c ≥ newN > 0` the cursor is clamped to `newN - 1`; and the
very-first-load adjustment applied to the persisted position implements
exactly the same policy. -/
theorem reconcile_spec (c : Int) (_oldN newN : Nat) :
    (0 ≤ c → newN = 0 → reconcile c newN = 0) ∧
    (c < (newN : Int) → reconcile c newN = c) ∧
    ((newN : Int) ≤ c → 0 < newN → reconcile c newN = (newN : Int) - 1) ∧
    initialAdjust c newN = reconcile c newN := by
  refine ⟨fun h1 h2 => ?_, fun h1 => ?_, fun h1 h2 => ?_, ?_⟩ <;>
    simp only [reconcile, initialAdjust] <;>
    repeat' split <;> omega

/-- Witness for C1, Scenario B of the specification: old cursor 4, new
count 3 reconciles to 2. -/
theorem reconcile_spec_witness :
    ((3 : Nat) : Int) ≤ (4 : Int) ∧ 0 < (3 : Nat) ∧ reconcile 4 3 = 2 := by
  refine ⟨by norm_num, by norm_num, ?_⟩
  have h := (reconcile_spec 4 5 3).2.2.1 (by norm_num) (by norm_num)
  rw [h]
  norm_num

/-- C2: starting from any state with a non-empty sentence list and the
cursor in bounds, every sequence of next/prev key events keeps
`0 ≤ cursor < len` at every step (every prefix of a sequence is itself a
sequence, and the single-step form is stated as well); next increments
the cursor exactly when `cursor < len - 1`, prev decrements it exactly
when `cursor > 0`, and both are no-ops otherwise. -/
theorem nav_cursor_invariant (n : Nat) (c : Int) (ks : List NavKey)
    (hn : 0 < n) (h0 : 0 ≤ c) (hc : c < (n : Int)) :
    (0 ≤ navRun n ks c ∧ navRun n ks c < (n : Int)) ∧
    (∀ k, 0 ≤ navStep n c k ∧ navStep n c k < (n : Int)) ∧
    (c < (n : Int) - 1 → nextCursor c n = c + 1) ∧
    ((n : Int) - 1 ≤ c → nextCursor c n = c) ∧
    (0 < c → prevCursor c = c - 1) ∧
    (c ≤ 0 → prevCursor c = c) := by
  refine ⟨navRun_bounds n ks hn c h0 hc,
          fun k => navStep_bounds n c k hn h0 hc, ?_, ?_, ?_, ?_⟩ <;>
    intro h <;> simp only [nextCursor, prevCursor] <;> split <;> omega

/-- Witness for C2: two sentences, cursor 0, the run next–prev–prev stays
within bounds. -/
theorem nav_cursor_invariant_witness :
    0 < (2 : Nat) ∧ 0 ≤ (0 : Int) ∧ (0 : Int) < ((2 : Nat) : Int) ∧
    (0 ≤ navRun 2 [NavKey.next, NavKey.prev, NavKey.prev] 0 ∧
      navRun 2 [NavKey.next, NavKey.prev, NavKey.prev] 0 < ((2 : Nat) : Int)) := by
  exact ⟨by norm_num, by norm_num, by norm_num,
    (nav_cursor_invariant 2 0 [NavKey.next, NavKey.prev, NavKey.prev]
      (by norm_num) (by norm_num) (by norm_num)).1⟩

/-- C3: in one loop iteration the persisted position is written by a
successful next move (becoming the new cursor) and by quit (becoming the
current cursor), and a prev, record or reload event alone leaves the
persisted position exactly as it was — including the exiting outcome of
a failed reload. -/
theorem persisted_position_frame (s : LoopState) (file : Option (List Char))
    (synthOk playerFail : Bool) :
    diskAfter (loopStep s .prev file synthOk playerFail) = s.disk ∧
    diskAfter (loopStep s .record file synthOk playerFail) = s.disk ∧
    diskAfter (loopStep s .reload file synthOk playerFail) = s.disk ∧
    diskAfter (loopStep s .other file synthOk playerFail) = s.disk ∧
    (s.sentences ≠ [] → s.cursor < (s.sentences.length : Int) - 1 →
      loopStep s .next file synthOk playerFail =
        .cont { s with cursor := s.cursor + 1, disk := s.cursor + 1 }) ∧
    diskAfter (loopStep s .quit file synthOk playerFail) = s.cursor := by
  refine ⟨?_, ?_, ?_, ?_, ?_, ?_⟩
  · simp only [loopStep]
    split
    · rfl
    · split <;> rfl
  · simp only [loopStep]
    split <;> rfl
  · simp only [loopStep]
    rcases read_sentences file with _ | ns
    · simp [diskAfter, exit_script]
    · dsimp only
      split <;> rfl
  · rfl
  · intro h1 h2
    simp only [loopStep]
    rw [if_neg (by simpa using h1), if_pos h2]
  · simp [loopStep, diskAfter, exit_script]

/-- Witness for C3: with two sentences and the cursor at 0 a next event
advances the cursor to 1 and persists 1. -/
theorem persisted_position_frame_witness :
    (LoopState.mk ["Hi.".data, "Bye.".data] 0 5 false).sentences ≠ [] ∧
    (LoopState.mk ["Hi.".data, "Bye.".data] 0 5 false).cursor <
      (((LoopState.mk ["Hi.".data, "Bye.".data] 0 5 false).sentences.length : Nat) : Int) - 1 ∧
    loopStep (LoopState.mk ["Hi.".data, "Bye.".data] 0 5 false) .next none true true =
      .cont (LoopState.mk ["Hi.".data, "Bye.".data] 1 1 false) := by
  refine ⟨by simp, by simp, ?_⟩
  have h := (persisted_position_frame
    (LoopState.mk ["Hi.".data, "Bye.".data] 0 5 false) none true true).2.2.2.2.1
    (by simp) (by simp)
  simpa using h

/-- C4: a `KeyboardInterrupt` in any state of the main loop exits the
process through `exit_script(save_position=False)`, leaving the
persisted position exactly as it was, in deliberate contrast to quit,
which persists the current cursor; in particular (Scenario E) an
interrupt with the cursor at 7 and persisted value 3 leaves 3 on disk. -/
theorem interrupt_exits_without_saving (s : LoopState) (file : Option (List Char))
    (synthOk playerFail : Bool) :
    loopStep s .interrupt file synthOk playerFail = .exited s.disk ∧
    diskAfter (loopStep s .quit file synthOk playerFail) = s.cursor ∧
    loopStep (LoopState.mk ["Hi.".data] 7 3 false) .interrupt none true true =
      .exited 3 := by
  refine ⟨?_, ?_, ?_⟩ <;> simp [loopStep, exit_script, diskAfter]

/-- C5 counterexample: segmenting Scenario A's text does not give the
three claimed sentences — the period of `Mr.` is preceded by the
lowercase letter `r`, which the single-capital-letter lookbehind does
not cover, so a boundary is placed after `Mr.`. -/
theorem scenarioA_counterexample :
    splitSentences "Hello world. Mr. Smith left. Are you OK?".data ≠
      ["Hello world.".data, "Mr. Smith left.".data, "Are you OK?".data] := by
  decide

/-- C5 amended: segmenting `"Hello world. Mr. Smith left. Are you OK?"`
yields the four sentences `"Hello world."`, `"Mr."`, `"Smith left."`,
`"Are you OK?"`. -/
theorem scenarioA_segmentation :
    splitSentences "Hello world. Mr. Smith left. Are you OK?".data =
      ["Hello world.".data, "Mr.".data, "Smith left.".data, "Are you OK?".data] := by
  decide

/-- `" ".join(...)`: the single-space join used by the re-segmentation
claim. -/
def joinSpace (xs : List (List Char)) : List Char :=
  List.intercalate [' '] xs

/-- C6 counterexample: segmenting `"a.b."` gives the two sentences
`"a"` and `"b."`, but segmenting their single-space join `"a b."` gives
the single sentence `"a b."`, so the sentence count is not preserved. -/
theorem resegment_count_counterexample :
    (splitSentences "a.b.".data).length = 2 ∧
    (splitSentences (joinSpace (splitSentences "a.b.".data))).length = 1 ∧
    ¬((splitSentences (joinSpace (splitSentences "a.b.".data))).length =
        (splitSentences "a.b.".data).length) := by
  refine ⟨by decide, by decide, by decide⟩

/-- C6 amended: for every text, the segmentation output contains no
empty and no whitespace-only elements (every element is non-empty and
holds at least one non-whitespace character); the sentence count is not
in general preserved by re-segmenting the single-space join. -/
theorem splitSentences_no_blanks (T : List Char) :
    (splitSentences T).all
      (fun s => !s.isEmpty && s.any (fun c => !pySpace c)) = true := by
  rw [List.all_eq_true]
  intro s hs
  unfold splitSentences at hs
  obtain ⟨hmem, hne⟩ := List.mem_filter.mp hs
  obtain ⟨m, hm, rfl⟩ := List.mem_map.mp hmem
  have hne2 : pyStrip m ≠ [] := by
    intro h0
    rw [h0] at hne
    simp at hne
  simp only [Bool.and_eq_true]
  exact ⟨by simpa using hne2, pyStrip_has_ink m hne2⟩

/-- C7 counterexample: from a state displaying one sentence, a reload
whose input text yields no sentences terminates the process (with the
persisted position unchanged) instead of leaving the session waiting
for further keys. -/
theorem reload_empty_input_terminates :
    loopStep (LoopState.mk ["Hi.".data] 0 0 false) .reload (some "   ".data) true true =
      .exited 0 ∧
    (loopStep (LoopState.mk ["Hi.".data] 0 0 false) .reload
      (some "   ".data) true true).isExit = true := by
  refine ⟨by decide, by decide⟩

/-- C7 amended: when a reload re-runs segmentation and the input file is
missing, empty, or yields no sentences, `read_sentences` reports the
error and raises `SystemExit`, which the loop propagates: the process
exits with status 0 and the persisted position is left unchanged; the
session does not remain in an empty-collection state. -/
theorem reload_failure_exits (s : LoopState) (file : Option (List Char))
    (synthOk playerFail : Bool) (h : read_sentences file = none) :
    loopStep s .reload file synthOk playerFail = .exited s.disk := by
  simp [loopStep, h, exit_script]

/-- Witness for C7 amended: the input file is missing. -/
theorem reload_failure_exits_witness :
    read_sentences none = none ∧
    loopStep (LoopState.mk ["Hi.".data] 2 9 true) .reload none false false =
      .exited 9 := by
  refine ⟨rfl, ?_⟩
  have h := reload_failure_exits (LoopState.mk ["Hi.".data] 2 9 true) none false false rfl
  simpa using h

/-- C8: a parsed settings document holding the legacy field and not the
canonical one is migrated — the value moves to the canonical field, the
legacy field disappears, and the document is rewritten to disk — before
the position is read out. -/
theorem legacy_field_migration (d : SettingsDoc) (v : Int)
    (hleg : d.last_processed_paragraph = some v)
    (hcan : d.last_processed_sentence = none) :
    load_settings (.valid d) =
      ⟨⟨some v, none⟩, .valid ⟨some v, none⟩, true⟩ ∧
    settingsGetPosition (load_settings (.valid d)).settings = v := by
  have h : load_settings (.valid d) = ⟨⟨some v, none⟩, .valid ⟨some v, none⟩, true⟩ := by
    simp [load_settings, hleg, hcan]
  refine ⟨h, ?_⟩
  rw [h]
  simp [settingsGetPosition]

/-- Witness for C8: a document with only the legacy field, value 7. -/
theorem legacy_field_migration_witness :
    (SettingsDoc.mk none (some 7)).last_processed_paragraph = some 7 ∧
    (SettingsDoc.mk none (some 7)).last_processed_sentence = none ∧
    load_settings (.valid (SettingsDoc.mk none (some 7))) =
      ⟨⟨some 7, none⟩, .valid ⟨some 7, none⟩, true⟩ := by
  exact ⟨rfl, rfl, (legacy_field_migration (SettingsDoc.mk none (some 7)) 7 rfl rfl).1⟩

/-- C9: a missing or unparsable (empty file included) settings document
makes the loader adopt the default document, whose canonical field is 0,
and write it back at once; the position read out is 0. -/
theorem corrupt_settings_self_heal :
    load_settings .missing = ⟨defaultSettings, .valid defaultSettings, true⟩ ∧
    load_settings .unparsable = ⟨defaultSettings, .valid defaultSettings, true⟩ ∧
    settingsGetPosition (load_settings .missing).settings = 0 ∧
    settingsGetPosition (load_settings .unparsable).settings = 0 ∧
    defaultSettings.last_processed_sentence = some 0 ∧
    (load_settings .missing).wrote = true ∧
    (load_settings .unparsable).wrote = true := by
  exact ⟨rfl, rfl, rfl, rfl, rfl, rfl, rfl⟩

/-- C10: a valid settings document with neither the canonical nor the
legacy field is adopted unchanged — no rewrite, no field inserted — and
the session starts at cursor 0 through the defaulting read
`settings.get("last_processed_sentence", 0)`; this is unlike the
missing-document case, which is rewritten at load time. -/
theorem absent_field_no_rewrite (d : SettingsDoc)
    (hs : d.last_processed_sentence = none)
    (hp : d.last_processed_paragraph = none) :
    load_settings (.valid d) = ⟨d, .valid d, false⟩ ∧
    settingsGetPosition (load_settings (.valid d)).settings = 0 ∧
    (load_settings .missing).wrote = true := by
  have h : load_settings (.valid d) = ⟨d, .valid d, false⟩ := by
    simp [load_settings, hp]
  refine ⟨h, ?_, rfl⟩
  rw [h]
  simp [settingsGetPosition, hs]

/-- Witness for C10: the empty JSON object `\x7b\x7d` as document. -/
theorem absent_field_no_rewrite_witness :
    (SettingsDoc.mk none none).last_processed_sentence = none ∧
    (SettingsDoc.mk none none).last_processed_paragraph = none ∧
    load_settings (.valid (SettingsDoc.mk none none)) =
      ⟨SettingsDoc.mk none none, .valid (SettingsDoc.mk none none), false⟩ := by
  exact ⟨rfl, rfl, (absent_field_no_rewrite (SettingsDoc.mk none none) rfl rfl).1⟩

end TTS
